import Mathlib

/-!
# Verification of the gpuserver session / streaming control plane

A shallow embedding, in Lean 4, of the parts of the `gpuserver` repository that
the specification's testable properties talk about:

* `gpuserver/session_manager.py` — session registry (creation cap, token index,
  deletion, idle cleanup);
* `gpuserver/api/management_api.py` — HTTP status codes of the admission API;
* `gpuserver/musetalk/streaming_engine.py` — `mirror_index` and the inference
  loop of `StreamingLipSyncEngine` (silence fast path, frame index);
* `gpuserver/api/websocket_server.py` — the websocket message loop and its
  JSON-decode error handling;
* `gpuserver/webrtc_streamer.py` — SDP candidate filtering, the A/V sync latch
  and the media-track pacing, and the `stream_frame` / `stream_audio` methods.

Python dictionaries are modelled as association lists with unique keys
(`dictGet` / `dictInsert` / `dictRemove`); nondeterministic inputs
(`uuid.uuid4()`, `secrets.token_urlsafe`, `time.time()`) are passed in as
explicit arguments; Python exceptions are modelled with `Except` / explicit
result types.  Wall-clock arithmetic (Python floats) is modelled over `ℚ`.
-/

/-! ## Python dict model

`self.sessions` and `self.tokens` in `session_manager.py` are Python dicts.
A dict is modelled as an association list whose keys are unique; `d[k] = v`
replaces in place or appends (`dictInsert`), `d.pop(k, None)` removes the key
(`dictRemove`, a filter — equal to Python's removal because keys are unique),
and `d.get(k)` is `dictGet`. -/

def dictGet {α : Type} (d : List (String × α)) (k : String) : Option α :=
  match d with
  | [] => none
  | (k₁, v) :: rest => if k₁ = k then some v else dictGet rest k

def dictInsert {α : Type} (d : List (String × α)) (k : String) (v : α) :
    List (String × α) :=
  match d with
  | [] => [(k, v)]
  | (k₁, v₁) :: rest =>
      if k₁ = k then (k, v) :: rest else (k₁, v₁) :: dictInsert rest k v

def dictRemove {α : Type} (d : List (String × α)) (k : String) :
    List (String × α) :=
  match d with
  | [] => []
  | (k₁, v₁) :: rest =>
      if k₁ = k then dictRemove rest k else (k₁, v₁) :: dictRemove rest k

/-- Keys of an association list are pairwise distinct (always true of the
association lists that model Python dicts). -/
def KeysNodup {α : Type} (d : List (String × α)) : Prop :=
  (d.map Prod.fst).Nodup

instance {α : Type} (d : List (String × α)) : Decidable (KeysNodup d) :=
  inferInstanceAs (Decidable (d.map Prod.fst).Nodup)

/-! ## Session registry — `gpuserver/session_manager.py`

`Session` mirrors the `@dataclass Session`; timestamps (`time.time()` floats)
are modelled as integers, which is enough for every ordering comparison the
registry performs.  `SessionManager` mirrors the class of the same name; the
nondeterministic `uuid.uuid4()` / `secrets.token_urlsafe(32)` draws and the
clock are passed in as explicit arguments. -/

structure Session where
  session_id : String
  tutor_id : Int
  student_id : Int
  kb_id : Option String
  engine_token : String
  status : String
  created_at : Int
  last_activity : Int
deriving Repr, DecidableEq

structure SessionManager where
  sessions : List (String × Session)
  tokens : List (String × String)
  max_sessions : Nat
  session_timeout : Int
deriving Repr, DecidableEq

/-- `SessionManager.__init__`. -/
def SessionManager.new (max_sessions : Nat) (session_timeout : Int) :
    SessionManager :=
  { sessions := [], tokens := [], max_sessions := max_sessions,
    session_timeout := session_timeout }

/-- `SessionManager.get_session`. -/
def SessionManager.get_session (m : SessionManager) (sid : String) :
    Option Session :=
  dictGet m.sessions sid

/-- `SessionManager.verify_token`. -/
def SessionManager.verify_token (m : SessionManager) (tok : String) :
    Option String :=
  dictGet m.tokens tok

/-- `SessionManager.delete_session`: looks the session up, returns `False`
when absent, otherwise removes the session from the primary index and its
token from the reverse index and returns `True`. -/
def SessionManager.delete_session (m : SessionManager) (sid : String) :
    SessionManager × Bool :=
  match dictGet m.sessions sid with
  | none => (m, false)
  | some s =>
      ({ m with sessions := dictRemove m.sessions sid,
                tokens := dictRemove m.tokens s.engine_token }, true)

/-- `SessionManager.update_activity`: sets `last_activity` of the session,
when present, to the current time (an in-place mutation of the stored
object, i.e. a keyed replacement). -/
def SessionManager.update_activity (m : SessionManager) (sid : String)
    (now : Int) : SessionManager :=
  match dictGet m.sessions sid with
  | none => m
  | some s =>
      { m with sessions :=
          dictInsert m.sessions sid { s with last_activity := now } }

/-- The session ids collected by `_cleanup_expired_sessions`: those with
`now - last_activity > session_timeout`. -/
def SessionManager.expiredIds (m : SessionManager) (now : Int) : List String :=
  (m.sessions.filter
      (fun p => now - p.2.last_activity > m.session_timeout)).map Prod.fst

/-- The `for session_id in expired_sessions: self.delete_session(session_id)`
loop. -/
def SessionManager.deleteAll (m : SessionManager) :
    List String → SessionManager
  | [] => m
  | sid :: rest => SessionManager.deleteAll (m.delete_session sid).1 rest

/-- `SessionManager._cleanup_expired_sessions`. -/
def SessionManager.cleanup_expired_sessions (m : SessionManager) (now : Int) :
    SessionManager :=
  m.deleteAll (m.expiredIds now)

/-- `SessionManager.create_session`: sweeps expired sessions, rejects with
`RuntimeError` (modelled as `Except.error`) when the cap is reached, else
registers the new session in both indices.  `sid` and `tok` stand for the
freshly drawn `uuid.uuid4()` and `secrets.token_urlsafe(32)`. -/
def SessionManager.create_session (m : SessionManager) (now : Int)
    (sid tok : String) (tutor student : Int) (kb : Option String) :
    SessionManager × Except String Session :=
  let m₁ := m.cleanup_expired_sessions now
  if m₁.sessions.length ≥ m₁.max_sessions then
    (m₁, Except.error "Maximum sessions reached")
  else
    let s : Session :=
      { session_id := sid, tutor_id := tutor, student_id := student,
        kb_id := kb, engine_token := tok, status := "active",
        created_at := now, last_activity := now }
    ({ m₁ with sessions := dictInsert m₁.sessions sid s,
               tokens := dictInsert m₁.tokens tok sid }, Except.ok s)

/-- The sessions of `m` that the sweep at time `now` keeps. -/
def SessionManager.nonExpiredSessions (m : SessionManager) (now : Int) :
    List (String × Session) :=
  m.sessions.filter (fun p => ¬ (now - p.2.last_activity > m.session_timeout))

/-! ### Admission API status codes — `gpuserver/api/management_api.py`

`create_session` maps a `RuntimeError` to HTTP 503 and success to 201;
`delete_session` maps `False` to 404 and `True` to 204; `get_session_status`
maps a missing session to 404 and a present one to 200. -/

def createSessionHttpStatus (res : SessionManager × Except String Session) :
    Nat :=
  match res.2 with
  | Except.ok _ => 201
  | Except.error _ => 503

def deleteSessionHttpStatus (res : SessionManager × Bool) : Nat :=
  if res.2 then 204 else 404

def getSessionHttpStatus (res : Option Session) : Nat :=
  match res with
  | some _ => 200
  | none => 404

/-! ### The token-index invariant -/

/-- Well-formedness of a registry state: unique keys in both dicts, every
token entry points back to a live session carrying that token, and every
live session's token is indexed and points back to it.  `SessionManager()`
starts well-formed and every operation preserves it. -/
def SessionManager.Wf (m : SessionManager) : Prop :=
  KeysNodup m.sessions ∧ KeysNodup m.tokens ∧
  (∀ t sid, dictGet m.tokens t = some sid →
      ∃ s, dictGet m.sessions sid = some s ∧ s.engine_token = t) ∧
  (∀ sid s, dictGet m.sessions sid = some s →
      dictGet m.tokens s.engine_token = some sid)

/-! ## Mirror indexing — `gpuserver/musetalk/streaming_engine.py` /
`gpuserver/musetalk/base_real.py`

Both files define the same pure function `mirror_index(size, index)`;
Python's `//` and `%` on nonnegative integers agree with `Nat` division
and modulus. -/

def mirror_index (size index : Nat) : Nat :=
  let turn := index / size
  let res := index % size
  if turn % 2 = 0 then res else size - res - 1

/-- The per-turn position map read off the branches of `mirror_index`:
on an even turn the cycle position is the residue itself, on an odd turn it
is reflected. -/
def turnPositionMap (size turn r : Nat) : Nat :=
  if turn % 2 = 0 then r else size - r - 1

/-! ## Streaming lip-sync inference loop —
`StreamingLipSyncEngine._inference_loop` in
`gpuserver/musetalk/streaming_engine.py`

The loop is modelled one iteration at a time over an explicit engine state.
Opaque data — audio payloads `A`, event markers `E`, video frames `F` and
whisper feature batches `W` — are type parameters; the UNet+VAE stack and
`get_image_blending` are function parameters (`net`, `blend`).  A ghost
counter `unetCalls` counts invocations of the neural network. -/

/-- One entry of `asr.output_queue`: `(frame, frame_type, eventpoint)`, with
`frame_type = 0` for speech and `1` for the silence filler produced by
`StreamingASR.get_audio_frame` on queue timeout. -/
structure AudioFrameRec (A E : Type) where
  payload : A
  ftype : Nat
  event : Option E
deriving Repr, DecidableEq

/-- The `is_all_silence` flag of the loop: starts `True` and is cleared by
any pulled chunk with `frame_type == 0`. -/
def isAllSilence {A E : Type} (afs : List (AudioFrameRec A E)) : Bool :=
  afs.all (fun af => af.ftype ≠ 0)

/-- State of the `StreamingASR` helper: its three queues and the context
frame buffer. -/
structure AsrState (A E W : Type) where
  input_queue : List A
  output_queue : List (AudioFrameRec A E)
  feat_queue : List W
  frames : List A
deriving Repr, DecidableEq

/-- `StreamingASR.flush`: clears every queue and the frame buffer. -/
def asrFlush {A E W : Type} (_ : AsrState A E W) : AsrState A E W :=
  { input_queue := [], output_queue := [], feat_queue := [], frames := [] }

/-- State of a `StreamingLipSyncEngine` as seen by the inference loop:
the thread-local logical frame index `index`, the two bounded output
queues, the ASR helper, and the ghost UNet counter. -/
structure StreamingEngineState (F A E W : Type) where
  inferIndex : Nat
  video_frame_queue : List F
  audio_frame_queue : List (AudioFrameRec A E)
  asr : AsrState A E W
  unetCalls : Nat
deriving Repr, DecidableEq

/-- The `if is_all_silence:` branch body: `for i in range(batch_size)` —
push the original frame at the mirrored index, forward the chunk pair
`audio_frames[i*2 : i*2+2]`, and advance `index` by one each iteration. -/
def emitSilenceBatch {F A E : Type} (cycle : List F) (L : Nat) (dflt : F) :
    Nat → Nat → List (AudioFrameRec A E) →
      List F × List (AudioFrameRec A E) × Nat
  | 0, index, _ => ([], [], index)
  | b + 1, index, afs =>
      let f := cycle.getD (mirror_index L index) dflt
      let rest := emitSilenceBatch cycle L dflt b (index + 1) (afs.drop 2)
      (f :: rest.1, afs.take 2 ++ rest.2.1, rest.2.2)

/-- The `for i, res_frame in enumerate(recon):` branch body: blend each
decoded mouth image onto the cycle frame at the mirrored index, forward the
chunk pair, advance `index` by one each iteration. -/
def emitInferredBatch {F A E : Type} (blend : F → Nat → F) (L : Nat) :
    List F → Nat → List (AudioFrameRec A E) →
      List F × List (AudioFrameRec A E) × Nat
  | [], index, _ => ([], [], index)
  | r :: recon, index, afs =>
      let f := blend r (mirror_index L index)
      let rest := emitInferredBatch blend L recon (index + 1) (afs.drop 2)
      (f :: rest.1, afs.take 2 ++ rest.2.1, rest.2.2)

/-- One iteration of `_inference_loop`: block on `feat_queue` (an empty
queue is the timeout / `continue` case), pull `batch_size * 2` audio chunks
from `output_queue`, then either fast-path a silence batch from the original
frame cycle or run the UNet+VAE (`net`, counted by `unetCalls`) and blend. -/
def engineInferStep {F A E W : Type} (frameCycle : List F) (dflt : F)
    (net : W → List F) (blend : F → Nat → F) (B : Nat)
    (st : StreamingEngineState F A E W) : StreamingEngineState F A E W :=
  match st.asr.feat_queue with
  | [] => st
  | whisper :: restFeats =>
      let afs := st.asr.output_queue.take (B * 2)
      let asr₁ : AsrState A E W :=
        { st.asr with
          feat_queue := restFeats,
          output_queue := st.asr.output_queue.drop (B * 2) }
      if isAllSilence afs then
        let out := emitSilenceBatch frameCycle frameCycle.length dflt B
          st.inferIndex afs
        { st with
          inferIndex := out.2.2,
          video_frame_queue := st.video_frame_queue ++ out.1,
          audio_frame_queue := st.audio_frame_queue ++ out.2.1,
          asr := asr₁ }
      else
        let out := emitInferredBatch blend frameCycle.length (net whisper)
          st.inferIndex afs
        { st with
          inferIndex := out.2.2,
          video_frame_queue := st.video_frame_queue ++ out.1,
          audio_frame_queue := st.audio_frame_queue ++ out.2.1,
          asr := asr₁, unetCalls := st.unetCalls + 1 }

/-- `StreamingLipSyncEngine._clear_queues`: drain `video_frame_queue` and
`audio_frame_queue` and flush the ASR helper.  `process_text` calls this at
the start of every request (the request boundary). -/
def clear_queues {F A E W : Type} (st : StreamingEngineState F A E W) :
    StreamingEngineState F A E W :=
  { st with
    video_frame_queue := [], audio_frame_queue := [],
    asr := asrFlush st.asr }

/-! ## Websocket message loop — `gpuserver/api/websocket_server.py`

The `while True:` receive loop of `websocket_endpoint` sits inside a single
`try:` block whose `except json.JSONDecodeError` / `finally` handlers are
OUTSIDE the loop.  Inbound payloads are modelled as either JSON-decodable
messages (`valid`) or text on which `json.loads` raises (`malformed`); the
per-message router `handle_message` is an opaque function returning the
replies for one message. -/

inductive WsInbound (M : Type) where
  | valid (msg : M)
  | malformed (raw : String)
deriving Repr, DecidableEq

inductive WsReply (R : Type) where
  | handled (r : R)
  | errorReply (content : String)
deriving Repr, DecidableEq

/-- The receive loop: each decodable message is routed and its replies sent;
a `json.loads` failure raises out of the loop to the `except` clause, which
sends one error reply, after which the handler runs its `finally` block and
returns — the remaining inbound messages are never received.  The boolean
records whether the loop is still receiving after the trace. -/
def wsMessageLoop {M R : Type} (handle : M → List R) :
    List (WsInbound M) → List (WsReply R) × Bool
  | [] => ([], true)
  | WsInbound.valid m :: rest =>
      let out := wsMessageLoop handle rest
      ((handle m).map WsReply.handled ++ out.1, out.2)
  | WsInbound.malformed _ :: _ =>
      ([WsReply.errorReply "Invalid message format"], false)

/-- Result of one `websocket_endpoint` handler run over an inbound trace. -/
structure WsRunResult (R : Type) where
  replies : List (WsReply R)
  loopRunning : Bool
  registered : Bool
deriving Repr, DecidableEq

/-- `websocket_endpoint` after accepting the connection: run the message
loop; if it exited (decode error), the `finally:` block pops the connection
from `active_connections` and the handler returns, closing the socket. -/
def websocket_endpoint_run {M R : Type} (handle : M → List R)
    (inbound : List (WsInbound M)) : WsRunResult R :=
  let out := wsMessageLoop handle inbound
  { replies := out.1, loopRunning := out.2, registered := out.2 }

/-! ## SDP candidate filtering — `gpuserver/webrtc_streamer.py`

An SDP is modelled as a list of structured lines.  A candidate line carries
its candidate type (the token after `typ`) and its connection address; per
the SDP grammar a line contains the substring "typ relay" exactly when its
type token is `relay`, so the `'typ relay' in line` tests of
`_modify_sdp_for_public_ip` and `_send_ice_candidates_from_sdp` become
`typ = "relay"`.  The `re.sub(r'c=IN IP4 …')` of the public address can only
match connection (`c=IN IP4`) lines, which is the `connLine` constructor. -/

inductive SdpLine where
  | connLine (ip : String)
  | mediaLine (desc : String)
  | midLine (mid : String)
  | candLine (typ : String) (addr : String) (body : String)
  | otherLine (s : String)
deriving Repr, DecidableEq

/-- The `re.sub(r'c=IN IP4 \d+…', 'c=IN IP4 <public_ip>', sdp)` step. -/
def substConnIp (publicIp : String) : SdpLine → SdpLine
  | SdpLine.connLine _ => SdpLine.connLine publicIp
  | l => l

/-- The per-line filter: candidate lines survive only with `typ relay`. -/
def keepSdpLine : SdpLine → Bool
  | SdpLine.candLine typ _ _ => typ = "relay"
  | _ => true

/-- `WebRTCStreamer._modify_sdp_for_public_ip`. -/
def modify_sdp_for_public_ip (publicIp : String) (sdp : List SdpLine) :
    List SdpLine :=
  (sdp.map (substConnIp publicIp)).filter keepSdpLine

/-- An out-of-band `webrtc_ice_candidate` message. -/
structure IceCandidateMsg where
  typ : String
  addr : String
  body : String
  sdpMLineIndex : Int
  sdpMid : Option String
deriving Repr, DecidableEq

/-- `WebRTCStreamer._send_ice_candidates_from_sdp`: walk the lines tracking
the media-line index (starting at `-1`) and the current `a=mid:`, and send
one message per candidate line that contains `typ relay`. -/
def send_ice_candidates_from_sdp :
    List SdpLine → Int → Option String → List IceCandidateMsg
  | [], _, _ => []
  | SdpLine.mediaLine _ :: ls, mline, mid =>
      send_ice_candidates_from_sdp ls (mline + 1) mid
  | SdpLine.midLine m :: ls, mline, _ =>
      send_ice_candidates_from_sdp ls mline (some m)
  | SdpLine.candLine typ addr body :: ls, mline, mid =>
      if typ = "relay" then
        { typ := typ, addr := addr, body := body, sdpMLineIndex := mline,
          sdpMid := mid } :: send_ice_candidates_from_sdp ls mline mid
      else
        send_ice_candidates_from_sdp ls mline mid
  | SdpLine.connLine _ :: ls, mline, mid =>
      send_ice_candidates_from_sdp ls mline mid
  | SdpLine.otherLine _ :: ls, mline, mid =>
      send_ice_candidates_from_sdp ls mline mid

/-- The tail of `WebRTCStreamer.handle_offer`: rewrite the answer SDP for
the public address and relay-only candidates, then extract the out-of-band
candidate messages from the modified SDP. -/
def handle_offer_filtering (publicIp : String) (sdp : List SdpLine) :
    List SdpLine × List IceCandidateMsg :=
  let modified := modify_sdp_for_public_ip publicIp sdp
  (modified, send_ice_candidates_from_sdp modified (-1) none)

/-! ## A/V sync latch and media-track pacing —
`gpuserver/webrtc_streamer.py` / `MuseRealEngine.process_frames_worker` in
`gpuserver/musetalk/base_real.py`

Wall-clock times (Python floats from `time.time()`) are modelled over `ℚ`;
`time.sleep(wait)` for a positive `wait` makes `recv` return exactly at the
deadline, so the release time of a frame is `max now deadline`. -/

/-- The module globals `_sync_triggered` / `_shared_start_time`. -/
structure AvSync where
  syncTriggered : Bool
  sharedStart : Option ℚ
deriving Repr, DecidableEq

/-- `trigger_av_sync()`: a no-op once triggered, otherwise latches the
shared start time to the current wall clock. -/
def trigger_av_sync (g : AvSync) (now : ℚ) : AvSync :=
  if g.syncTriggered then g
  else { syncTriggered := true, sharedStart := some now }

/-- `PREBUFFER_FRAMES` in `process_frames_worker`. -/
def PREBUFFER_FRAMES : Nat := 3

/-- The coupler's local prebuffer state (`frame_count`, `sync_triggered`). -/
structure CouplerState where
  frameCount : Nat
  syncTriggeredLocal : Bool
deriving Repr, DecidableEq

/-- One frame arriving at the output coupler: the counter is incremented,
and when the prebuffer is reached for the first time `trigger_av_sync()` is
invoked. -/
def couplerFrameStep (g : AvSync) (c : CouplerState) (now : ℚ) :
    AvSync × CouplerState :=
  let c₁ : CouplerState := { c with frameCount := c.frameCount + 1 }
  if c₁.syncTriggeredLocal = false ∧ PREBUFFER_FRAMES ≤ c₁.frameCount then
    (trigger_av_sync g now, { c₁ with syncTriggeredLocal := true })
  else
    (g, c₁)

/-- The coupler drains frames arriving at the given wall-clock times. -/
def couplerRun : AvSync → CouplerState → List ℚ → AvSync × CouplerState
  | g, c, [] => (g, c)
  | g, c, t :: ts =>
      let out := couplerFrameStep g c t
      couplerRun out.1 out.2 ts

/-- Pacing state shared by `AvatarVideoTrack` and `AvatarAudioTrack`
(`_data_started`, `_timestamp`, `_start`, `current_frame_count`). -/
structure TrackState where
  dataStarted : Bool
  timestamp : Option Int
  start : ℚ
  frameCount : Nat
deriving Repr, DecidableEq

/-- What one `next_timestamp()` call produces: the RTP timestamp, the next
state, the wall-clock deadline it paced to (`_start + n · Δ`, absent before
the latch), and the wall-clock instant at which `recv` returns. -/
structure TrackStepOut where
  pts : Int
  state : TrackState
  deadline : Option ℚ
  releaseTime : ℚ
deriving Repr, DecidableEq

/-- `next_timestamp()` of either track, with `ptime` the frame period in
seconds (0.040 video / 0.020 audio) and `ptsInc` the RTP timestamp step
(`int(PTIME · clock_rate)`, 3600 video / 320 audio).  Before any real data
the call sleeps one period and returns timestamp 0 without advancing; the
first call after real data latches `_start` to the shared start time (or
the current clock when the latch never fired); each later call advances the
frame count and sleeps until `_start + count · ptime` when that deadline is
in the future. -/
def next_timestamp (ptime : ℚ) (ptsInc : Int) (sharedStart : Option ℚ)
    (st : TrackState) (now : ℚ) : TrackStepOut :=
  if st.dataStarted = false then
    { pts := 0, state := st, deadline := none, releaseTime := now + ptime }
  else
    match st.timestamp with
    | some ts =>
        let n := st.frameCount + 1
        let dl := st.start + (n : ℚ) * ptime
        { pts := ts + ptsInc,
          state := { st with
            timestamp := some (ts + ptsInc), frameCount := n },
          deadline := some dl,
          releaseTime := max now dl }
    | none =>
        let s := match sharedStart with
          | some t => t
          | none => now
        { pts := 0,
          state := { st with timestamp := some 0, start := s },
          deadline := none,
          releaseTime := now }

/-- `AvatarVideoTrack`: 40 ms period, 90 kHz clock (`0.040 · 90000 = 3600`). -/
def videoNextTimestamp : Option ℚ → TrackState → ℚ → TrackStepOut :=
  next_timestamp (40 / 1000) 3600

/-- `AvatarAudioTrack`: 20 ms period, 16 kHz clock (`0.020 · 16000 = 320`). -/
def audioNextTimestamp : Option ℚ → TrackState → ℚ → TrackStepOut :=
  next_timestamp (20 / 1000) 320

/-! ## `stream_frame` / `stream_audio` — `gpuserver/webrtc_streamer.py`

Python resolves `obj.method` at call time; the attributes of a track object
are those assigned in the class body and `__init__` of the repository's
classes plus those inherited from aiortc's `VideoStreamTrack` /
`AudioStreamTrack` (`MediaStreamTrack`, a pyee `EventEmitter`).  The lists
below enumerate them; an access to any other name raises
`AttributeError`. -/

/-- Attributes of `AvatarVideoTrack` (class body, `__init__`, and the
aiortc/pyee base classes).  There is no `add_frame`. -/
def avatarVideoTrackAttrs : List String :=
  ["_queue", "_timestamp", "_start", "current_frame_count", "idle_frames",
   "idle_frame_index", "VIDEO_PTIME", "VIDEO_CLOCK_RATE", "VIDEO_TIME_BASE",
   "framecount", "lasttime", "totaltime", "_data_started",
   "next_timestamp", "recv", "_get_idle_frame", "set_idle_frames",
   "end_stream",
   "kind", "id", "readyState", "stop", "on", "once", "emit",
   "remove_listener", "remove_all_listeners", "listeners"]

/-- Attributes of `AvatarAudioTrack` (class body, `__init__`, and the
aiortc/pyee base classes).  There is no `add_audio_chunk`. -/
def avatarAudioTrackAttrs : List String :=
  ["_queue", "_timestamp", "_start", "current_frame_count", "AUDIO_PTIME",
   "SAMPLE_RATE", "AUDIO_TIME_BASE", "_data_started",
   "next_timestamp", "recv", "_get_silence_frame",
   "kind", "id", "readyState", "stop", "on", "once", "emit",
   "remove_listener", "remove_all_listeners", "listeners"]

/-- Outcome of a Python expression: normal completion or a raised
exception. -/
inductive PyOutcome where
  | ok
  | raised (exc : String)
deriving Repr, DecidableEq

/-- Attribute lookup followed by a call: on a missing attribute, Python
raises `AttributeError` before the call body can run. -/
def getattrCall (attrs : List String) (name : String) : PyOutcome :=
  if name ∈ attrs then PyOutcome.ok else PyOutcome.raised "AttributeError"

/-- The per-session track registries and per-track queues of
`WebRTCStreamer`.  Queue payloads are abstract `Nat` identifiers. -/
structure WebRTCStreamerState where
  video_tracks : List String
  audio_tracks : List String
  videoQueues : List (String × List Nat)
  audioQueues : List (String × List Nat)
deriving Repr, DecidableEq

/-- `WebRTCStreamer.stream_frame`: looks the session's video track up and
invokes `video_track.add_frame(frame)` — an attribute that
`AvatarVideoTrack` does not define, so the attribute lookup raises and
nothing is enqueued; an unknown session only logs a warning. -/
def stream_frame (st : WebRTCStreamerState) (sid : String) (frame : Nat) :
    WebRTCStreamerState × PyOutcome :=
  if sid ∈ st.video_tracks then
    match getattrCall avatarVideoTrackAttrs "add_frame" with
    | PyOutcome.ok =>
        let q := (dictGet st.videoQueues sid).getD []
        let st₁ := { st with
          videoQueues := dictInsert st.videoQueues sid (q ++ [frame]) }
        (st₁, PyOutcome.ok)
    | PyOutcome.raised e => (st, PyOutcome.raised e)
  else
    (st, PyOutcome.ok)

/-- `WebRTCStreamer.stream_audio`: an unknown session logs a warning; for a
known session the whole body runs inside `try: … except Exception: log`, so
the `AttributeError` raised by the undefined
`audio_track.add_audio_chunk` is swallowed — no chunk is enqueued and the
caller observes normal completion. -/
def stream_audio (st : WebRTCStreamerState) (sid : String)
    (chunks : List Nat) : WebRTCStreamerState × PyOutcome :=
  if sid ∈ st.audio_tracks then
    match getattrCall avatarAudioTrackAttrs "add_audio_chunk" with
    | PyOutcome.ok =>
        let q := (dictGet st.audioQueues sid).getD []
        let st₁ := { st with
          audioQueues := dictInsert st.audioQueues sid (q ++ chunks) }
        (st₁, PyOutcome.ok)
    | PyOutcome.raised _ => (st, PyOutcome.ok)
  else
    (st, PyOutcome.ok)

theorem dictGet_eq_none_iff {α : Type} {d : List (String × α)} {k : String} :
    dictGet d k = none ↔ ∀ p ∈ d, p.1 ≠ k := by
  induction d with
  | nil => simp [dictGet]
  | cons hd tl ih =>
      obtain ⟨k₁, v₁⟩ := hd
      by_cases h : k₁ = k <;> simp [dictGet, h, ih]

theorem dictRemove_sublist {α : Type} (d : List (String × α)) (k : String) :
    List.Sublist (dictRemove d k) d := by
  induction d with
  | nil => exact List.Sublist.refl _
  | cons hd tl ih =>
      obtain ⟨k₁, v₁⟩ := hd
      by_cases hk : k₁ = k
      · simpa [dictRemove, hk] using List.Sublist.cons (k₁, v₁) ih
      · simpa [dictRemove, hk] using List.Sublist.cons₂ (k₁, v₁) ih

theorem dictGet_remove_self {α : Type} (d : List (String × α)) (k : String) :
    dictGet (dictRemove d k) k = none := by
  induction d with
  | nil => rfl
  | cons hd tl ih =>
      obtain ⟨k₁, v₁⟩ := hd
      by_cases hk : k₁ = k <;> simp [dictRemove, dictGet, hk, ih]

theorem dictGet_remove_ne {α : Type} (d : List (String × α)) {k k₂ : String}
    (h : k ≠ k₂) : dictGet (dictRemove d k) k₂ = dictGet d k₂ := by
  induction d with
  | nil => rfl
  | cons hd tl ih =>
      obtain ⟨k₁, v₁⟩ := hd
      by_cases hk : k₁ = k
      · subst hk
        simp [dictRemove, dictGet, h, ih]
      · by_cases hk₂ : k₁ = k₂ <;>
          simp [dictRemove, dictGet, hk, hk₂, Ne.symm h, ih]

theorem dictGet_insert_self {α : Type} (d : List (String × α)) (k : String)
    (v : α) : dictGet (dictInsert d k v) k = some v := by
  induction d with
  | nil => simp [dictInsert, dictGet]
  | cons hd tl ih =>
      obtain ⟨k₁, v₁⟩ := hd
      by_cases h : k₁ = k <;> simp [dictInsert, dictGet, h, ih]

theorem dictGet_insert_ne {α : Type} (d : List (String × α)) {k k₂ : String}
    (v : α) (h : k ≠ k₂) :
    dictGet (dictInsert d k v) k₂ = dictGet d k₂ := by
  induction d with
  | nil => simp [dictInsert, dictGet, h]
  | cons hd tl ih =>
      obtain ⟨k₁, v₁⟩ := hd
      by_cases hk : k₁ = k
      · subst hk
        simp [dictInsert, dictGet, h]
      · by_cases hk₂ : k₁ = k₂ <;>
          simp [dictInsert, dictGet, hk, hk₂, Ne.symm h, ih]

theorem dictGet_mem {α : Type} {d : List (String × α)} {k : String} {v : α}
    (h : dictGet d k = some v) : (k, v) ∈ d := by
  induction d with
  | nil => simp [dictGet] at h
  | cons hd tl ih =>
      obtain ⟨k₁, v₁⟩ := hd
      by_cases hk : k₁ = k
      · subst hk
        simp [dictGet] at h
        subst h
        exact List.mem_cons_self _ _
      · simp only [dictGet, if_neg hk] at h
        exact List.mem_cons_of_mem _ (ih h)

theorem dictInsert_mem_keys {α : Type} (d : List (String × α)) (k : String)
    (v : α) : ∀ p ∈ dictInsert d k v, p.1 = k ∨ p.1 ∈ d.map Prod.fst := by
  induction d with
  | nil => intro p hp; simp [dictInsert] at hp; simp [hp]
  | cons hd tl ih =>
      obtain ⟨k₂, v₂⟩ := hd
      intro p hp
      by_cases hk₂ : k₂ = k
      · subst hk₂
        simp only [dictInsert, if_pos rfl] at hp
        rcases List.mem_cons.mp hp with rfl | hp₂
        · exact Or.inl rfl
        · exact Or.inr
            (List.mem_map_of_mem Prod.fst (List.mem_cons_of_mem _ hp₂))
      · simp only [dictInsert, if_neg hk₂] at hp
        rcases List.mem_cons.mp hp with rfl | hp₂
        · exact Or.inr (List.mem_map_of_mem Prod.fst (List.mem_cons_self _ _))
        · rcases ih p hp₂ with h₁ | h₁
          · exact Or.inl h₁
          · refine Or.inr ?_
            rw [List.map_cons]
            exact List.mem_cons_of_mem _ h₁

theorem dictInsert_keysNodup {α : Type} {d : List (String × α)}
    (h : KeysNodup d) (k : String) (v : α) : KeysNodup (dictInsert d k v) := by
  induction d with
  | nil => simp [dictInsert, KeysNodup]
  | cons hd tl ih =>
      obtain ⟨k₁, v₁⟩ := hd
      simp only [KeysNodup, List.map_cons, List.nodup_cons] at h
      by_cases hk : k₁ = k
      · subst hk
        simpa [dictInsert, KeysNodup] using h
      · have htl := ih h.2
        simp only [dictInsert, if_neg hk, KeysNodup, List.map_cons,
          List.nodup_cons]
        refine ⟨?_, htl⟩
        intro hmem
        rcases List.mem_map.mp hmem with ⟨p, hp, hpk⟩
        rcases dictInsert_mem_keys tl k v p hp with h₁ | h₁
        · exact hk (hpk ▸ h₁ ▸ rfl)
        · exact h.1 (hpk ▸ h₁)

theorem dictRemove_keysNodup {α : Type} {d : List (String × α)}
    (h : KeysNodup d) (k : String) : KeysNodup (dictRemove d k) :=
  List.Nodup.sublist (List.Sublist.map Prod.fst (dictRemove_sublist d k)) h

theorem dictRemove_length_le {α : Type} (d : List (String × α)) (k : String) :
    (dictRemove d k).length ≤ d.length :=
  List.Sublist.length_le (dictRemove_sublist d k)

theorem dictRemove_length_lt {α : Type} {d : List (String × α)} {k : String}
    {v : α} (h : dictGet d k = some v) :
    (dictRemove d k).length < d.length := by
  induction d with
  | nil => simp [dictGet] at h
  | cons hd tl ih =>
      obtain ⟨k₁, v₁⟩ := hd
      by_cases hk : k₁ = k
      · have := dictRemove_length_le tl k
        simp only [dictRemove, if_pos hk, List.length_cons]
        omega
      · simp only [dictGet, if_neg hk] at h
        have hlt := ih h
        simp only [dictRemove, if_neg hk, List.length_cons]
        omega

/-! ### Registry lemmas -/

theorem dictRemove_eq_self_of_none {α : Type} {d : List (String × α)}
    {k : String} (h : dictGet d k = none) : dictRemove d k = d := by
  induction d with
  | nil => rfl
  | cons hd tl ih =>
      obtain ⟨k₁, v₁⟩ := hd
      by_cases hk : k₁ = k
      · simp [dictGet, hk] at h
      · simp only [dictGet, if_neg hk] at h
        simp [dictRemove, hk, ih h]

theorem dictGet_of_mem_nodup {α : Type} {d : List (String × α)}
    (h : KeysNodup d) {p : String × α} (hp : p ∈ d) :
    dictGet d p.1 = some p.2 := by
  induction d with
  | nil => simp at hp
  | cons hd tl ih =>
      obtain ⟨k₁, v₁⟩ := hd
      simp only [KeysNodup, List.map_cons, List.nodup_cons] at h
      rcases List.mem_cons.mp hp with rfl | hp₂
      · simp [dictGet]
      · by_cases hk : k₁ = p.1
        · exact absurd (hk ▸ List.mem_map_of_mem Prod.fst hp₂) h.1
        · simp only [dictGet, if_neg hk]
          exact ih h.2 hp₂

/-- In a dict, two entries with the same key are the same entry. -/
theorem keysNodup_key_inj {α : Type} {d : List (String × α)} (h : KeysNodup d)
    {p q : String × α} (hp : p ∈ d) (hq : q ∈ d) (hk : p.1 = q.1) : p = q := by
  have h₁ := dictGet_of_mem_nodup h hp
  have h₂ := dictGet_of_mem_nodup h hq
  rw [hk, h₂] at h₁
  exact Prod.ext hk (Option.some.inj h₁).symm

/-- `delete_session` only ever shrinks both indices (sublists of the
originals), and preserves the configuration fields. -/
theorem delete_session_shape (m : SessionManager) (sid : String) :
    List.Sublist ((m.delete_session sid).1).sessions m.sessions
    ∧ List.Sublist ((m.delete_session sid).1).tokens m.tokens
    ∧ ((m.delete_session sid).1).max_sessions = m.max_sessions
    ∧ ((m.delete_session sid).1).session_timeout = m.session_timeout := by
  unfold SessionManager.delete_session
  cases h : dictGet m.sessions sid with
  | none => exact ⟨List.Sublist.refl _, List.Sublist.refl _, rfl, rfl⟩
  | some s => exact ⟨dictRemove_sublist _ _, dictRemove_sublist _ _, rfl, rfl⟩

theorem deleteAll_shape (E : List String) : ∀ m : SessionManager,
    List.Sublist ((m.deleteAll E)).sessions m.sessions
    ∧ List.Sublist ((m.deleteAll E)).tokens m.tokens
    ∧ (m.deleteAll E).max_sessions = m.max_sessions
    ∧ (m.deleteAll E).session_timeout = m.session_timeout := by
  induction E with
  | nil =>
      intro m
      exact ⟨List.Sublist.refl _, List.Sublist.refl _, rfl, rfl⟩
  | cons sid rest ih =>
      intro m
      have h₁ := delete_session_shape m sid
      have h₂ := ih (m.delete_session sid).1
      refine ⟨h₂.1.trans h₁.1, h₂.2.1.trans h₁.2.1, ?_, ?_⟩
      · exact h₂.2.2.1.trans h₁.2.2.1
      · exact h₂.2.2.2.trans h₁.2.2.2

theorem cleanup_shape (m : SessionManager) (now : Int) :
    List.Sublist ((m.cleanup_expired_sessions now)).sessions m.sessions
    ∧ List.Sublist ((m.cleanup_expired_sessions now)).tokens m.tokens
    ∧ (m.cleanup_expired_sessions now).max_sessions = m.max_sessions
    ∧ (m.cleanup_expired_sessions now).session_timeout = m.session_timeout :=
  deleteAll_shape (m.expiredIds now) m

/-- The sessions component of the delete loop is an iterated key removal. -/
theorem delete_session_sessions (m : SessionManager) (sid : String) :
    ((m.delete_session sid).1).sessions = dictRemove m.sessions sid := by
  unfold SessionManager.delete_session
  cases h : dictGet m.sessions sid with
  | none => exact (dictRemove_eq_self_of_none h).symm
  | some s => rfl

theorem deleteAll_sessions (E : List String) : ∀ m : SessionManager,
    (m.deleteAll E).sessions = E.foldl dictRemove m.sessions := by
  induction E with
  | nil => intro m; rfl
  | cons sid rest ih =>
      intro m
      have := ih (m.delete_session sid).1
      rw [SessionManager.deleteAll, this, delete_session_sessions]
      rfl

theorem foldl_dictRemove_eq_filter {α : Type} (E : List String) :
    ∀ d : List (String × α),
      E.foldl dictRemove d = d.filter (fun p => decide (p.1 ∉ E)) := by
  induction E with
  | nil => intro d; simp
  | cons e rest ih =>
      intro d
      have hrem : dictRemove d e = d.filter (fun p => decide (p.1 ≠ e)) := by
        induction d with
        | nil => rfl
        | cons hd tl ihd =>
            obtain ⟨k₁, v₁⟩ := hd
            by_cases hk : k₁ = e <;> simp [dictRemove, hk, ihd]
      rw [List.foldl_cons, ih, hrem, List.filter_filter]
      apply List.filter_congr
      intro p _
      by_cases h₁ : p.1 = e <;> by_cases h₂ : p.1 ∈ rest <;> simp [h₁, h₂]

/-- Under unique keys, the sweep keeps exactly the non-expired sessions. -/
theorem cleanup_sessions_eq {m : SessionManager} (hnd : KeysNodup m.sessions)
    (now : Int) :
    (m.cleanup_expired_sessions now).sessions = m.nonExpiredSessions now := by
  rw [SessionManager.cleanup_expired_sessions, deleteAll_sessions,
    foldl_dictRemove_eq_filter, SessionManager.nonExpiredSessions]
  apply List.filter_congr
  intro p hp
  simp only [SessionManager.expiredIds, decide_eq_decide, List.mem_map,
    List.mem_filter]
  constructor
  · intro hnotin
    intro hexp
    exact hnotin ⟨p, ⟨hp, by simpa using hexp⟩, rfl⟩
  · rintro hnexp ⟨q, ⟨hq, hqexp⟩, hqk⟩
    have : q = p := keysNodup_key_inj hnd hq hp hqk
    subst this
    exact hnexp (by simpa using hqexp)

theorem wf_new (max_sessions : Nat) (session_timeout : Int) :
    (SessionManager.new max_sessions session_timeout).Wf := by
  refine ⟨List.nodup_nil, List.nodup_nil, ?_, ?_⟩
  · intro t sid h; simp [SessionManager.new, dictGet] at h
  · intro sid s h; simp [SessionManager.new, dictGet] at h

theorem dictGet_remove_some {α : Type} {d : List (String × α)}
    {k k₂ : String} {v : α} (h : dictGet (dictRemove d k) k₂ = some v) :
    k₂ ≠ k ∧ dictGet d k₂ = some v := by
  by_cases hk : k₂ = k
  · subst hk
    rw [dictGet_remove_self] at h
    exact absurd h (by simp)
  · rw [dictGet_remove_ne d (Ne.symm hk)] at h
    exact ⟨hk, h⟩

theorem wf_delete {m : SessionManager} (hwf : m.Wf) (sid : String) :
    ((m.delete_session sid).1).Wf := by
  obtain ⟨hnd, hnt, h₃, h₄⟩ := hwf
  unfold SessionManager.delete_session
  cases hget : dictGet m.sessions sid with
  | none => exact ⟨hnd, hnt, h₃, h₄⟩
  | some s =>
      refine ⟨dictRemove_keysNodup hnd sid,
        dictRemove_keysNodup hnt s.engine_token, ?_, ?_⟩
      · intro t sid₂ h
        obtain ⟨htne, h⟩ := dictGet_remove_some h
        obtain ⟨s₂, hs₂, hs₂t⟩ := h₃ t sid₂ h
        refine ⟨s₂, ?_, hs₂t⟩
        have hne : sid₂ ≠ sid := by
          rintro rfl
          rw [hget] at hs₂
          exact htne (hs₂t ▸ congrArg Session.engine_token
            (Option.some.inj hs₂) ▸ rfl)
        rw [dictGet_remove_ne _ (Ne.symm hne)]
        exact hs₂
      · intro sid₂ s₂ h
        obtain ⟨hne, h⟩ := dictGet_remove_some h
        have htok := h₄ sid₂ s₂ h
        have htokne : s₂.engine_token ≠ s.engine_token := by
          intro heq
          have h₁ := h₄ sid s hget
          rw [heq] at htok
          rw [htok] at h₁
          exact hne (Option.some.inj h₁)
        rw [dictGet_remove_ne _ (Ne.symm htokne)]
        exact htok

theorem wf_deleteAll (E : List String) :
    ∀ m : SessionManager, m.Wf → (m.deleteAll E).Wf := by
  induction E with
  | nil => intro m h; exact h
  | cons sid rest ih =>
      intro m h
      exact ih _ (wf_delete h sid)

theorem wf_cleanup {m : SessionManager} (hwf : m.Wf) (now : Int) :
    (m.cleanup_expired_sessions now).Wf :=
  wf_deleteAll (m.expiredIds now) m hwf

theorem wf_update_activity {m : SessionManager} (hwf : m.Wf) (sid : String)
    (now : Int) : (m.update_activity sid now).Wf := by
  obtain ⟨hnd, hnt, h₃, h₄⟩ := hwf
  cases hget : dictGet m.sessions sid with
  | none =>
      simp only [SessionManager.update_activity, hget]
      exact ⟨hnd, hnt, h₃, h₄⟩
  | some s =>
      simp only [SessionManager.update_activity, hget]
      refine ⟨dictInsert_keysNodup hnd _ _, hnt, ?_, ?_⟩
      · intro t sid₂ h
        obtain ⟨s₂, hs₂, hs₂t⟩ := h₃ t sid₂ h
        by_cases hne : sid₂ = sid
        · subst hne
          rw [hget] at hs₂
          obtain rfl := Option.some.inj hs₂
          exact ⟨{ s with last_activity := now }, dictGet_insert_self _ _ _,
            hs₂t⟩
        · refine ⟨s₂, ?_, hs₂t⟩
          rw [dictGet_insert_ne _ _ (fun h₁ => hne h₁.symm)]
          exact hs₂
      · intro sid₂ s₂ h
        by_cases hne : sid₂ = sid
        · subst hne
          rw [dictGet_insert_self] at h
          obtain rfl := Option.some.inj h.symm
          exact h₄ sid₂ s hget
        · rw [dictGet_insert_ne _ _ (fun h₁ => hne h₁.symm)] at h
          exact h₄ sid₂ s₂ h

/-- Freshness survives the sweep: a key absent from a dict is absent from any
shrunk (sublist) version of it. -/
theorem dictGet_none_of_sublist {α : Type} {d₁ d₂ : List (String × α)}
    (hsub : List.Sublist d₁ d₂) {k : String} (h : dictGet d₂ k = none) :
    dictGet d₁ k = none := by
  rw [dictGet_eq_none_iff] at h ⊢
  exact fun p hp => h p (hsub.subset hp)

theorem wf_create {m : SessionManager} (hwf : m.Wf) (now : Int)
    {sid tok : String} (tutor student : Int) (kb : Option String)
    (hsid : dictGet m.sessions sid = none)
    (htok : dictGet m.tokens tok = none) {m₁ : SessionManager} {s : Session}
    (hok : m.create_session now sid tok tutor student kb =
        (m₁, Except.ok s)) :
    m₁.Wf ∧ s.engine_token = tok ∧ s.session_id = sid ∧
      dictGet m₁.sessions sid = some s ∧ dictGet m₁.tokens tok = some sid := by
  have hclean := wf_cleanup hwf now
  set mc := m.cleanup_expired_sessions now with hmc
  have hsidc : dictGet mc.sessions sid = none :=
    dictGet_none_of_sublist (cleanup_shape m now).1 hsid
  have htokc : dictGet mc.tokens tok = none :=
    dictGet_none_of_sublist (cleanup_shape m now).2.1 htok
  simp only [SessionManager.create_session] at hok
  rw [← hmc] at hok
  split at hok
  · exact absurd (congrArg Prod.snd hok) (by simp)
  · injection hok with hm₁ hs
    injection hs with hs
    subst hs
    subst hm₁
    obtain ⟨hndc, hntc, h₃c, h₄c⟩ := hclean
    refine ⟨⟨dictInsert_keysNodup hndc _ _, dictInsert_keysNodup hntc _ _,
      ?_, ?_⟩, rfl, rfl, dictGet_insert_self _ _ _, dictGet_insert_self _ _ _⟩
    · intro t sid₂ h
      by_cases ht : t = tok
      · subst ht
        rw [dictGet_insert_self] at h
        obtain rfl := Option.some.inj h.symm
        exact ⟨_, dictGet_insert_self _ _ _, rfl⟩
      · rw [dictGet_insert_ne _ _ (fun h₁ => ht h₁.symm)] at h
        obtain ⟨s₂, hs₂, hs₂t⟩ := h₃c t sid₂ h
        have hne : sid₂ ≠ sid := by
          rintro rfl
          rw [hsidc] at hs₂
          exact absurd hs₂ (by simp)
        refine ⟨s₂, ?_, hs₂t⟩
        rw [dictGet_insert_ne _ _ (fun h₁ => hne h₁.symm)]
        exact hs₂
    · intro sid₂ s₂ h
      by_cases hne : sid₂ = sid
      · subst hne
        rw [dictGet_insert_self] at h
        obtain rfl := Option.some.inj h.symm
        exact dictGet_insert_self _ _ _
      · rw [dictGet_insert_ne _ _ (fun h₁ => hne h₁.symm)] at h
        have htokmem := h₄c sid₂ s₂ h
        have htne : s₂.engine_token ≠ tok := by
          intro heq
          rw [heq, htokc] at htokmem
          exact absurd htokmem (by simp)
        rw [dictGet_insert_ne _ _ (fun h₁ => htne h₁.symm)]
        exact htokmem

/-! ## Claim C1 -/

/-- C1: session creation is admission-controlled.  When the number of
non-expired sessions is at least the configured cap, `create_session`
rejects with the capacity `RuntimeError` (surfaced by the admission API as
HTTP 503) and registers no new session — the resulting state is exactly the
post-sweep state.  After any one session is deleted from a registry whose
size is within the cap, a subsequent create succeeds (HTTP 201). -/
theorem create_session_admission_control
    (m : SessionManager) (now now₂ : Int) (sid tok sid₂ tok₂ sid₀ : String)
    (tutor student : Int) (kb : Option String)
    (hnd : KeysNodup m.sessions) :
    (m.max_sessions ≤ (m.nonExpiredSessions now).length →
      m.create_session now sid tok tutor student kb =
          (m.cleanup_expired_sessions now,
            Except.error "Maximum sessions reached")
        ∧ createSessionHttpStatus
            (m.create_session now sid tok tutor student kb) = 503)
    ∧ (m.sessions.length ≤ m.max_sessions →
      ∀ s₀, dictGet m.sessions sid₀ = some s₀ →
        (∃ s, (((m.delete_session sid₀).1).create_session now₂ sid₂ tok₂
            tutor student kb).2 = Except.ok s)
        ∧ createSessionHttpStatus (((m.delete_session sid₀).1).create_session
            now₂ sid₂ tok₂ tutor student kb) = 201) := by
  constructor
  · intro hcap
    have hlen : (m.cleanup_expired_sessions now).sessions.length =
        (m.nonExpiredSessions now).length :=
      congrArg List.length (cleanup_sessions_eq hnd now)
    have hmax : (m.cleanup_expired_sessions now).max_sessions =
        m.max_sessions := (cleanup_shape m now).2.2.1
    have hcond : (m.cleanup_expired_sessions now).sessions.length ≥
        (m.cleanup_expired_sessions now).max_sessions := by
      rw [hlen, hmax]; exact hcap
    have heq : m.create_session now sid tok tutor student kb =
        (m.cleanup_expired_sessions now,
          Except.error "Maximum sessions reached") := by
      simp only [SessionManager.create_session]
      rw [if_pos hcond]
    exact ⟨heq, by rw [createSessionHttpStatus, heq]⟩
  · intro hlen s₀ hs₀
    set md := (m.delete_session sid₀).1 with hmd
    have hdlt : md.sessions.length < m.sessions.length := by
      rw [hmd, delete_session_sessions]
      exact dictRemove_length_lt hs₀
    have hdmax : md.max_sessions = m.max_sessions :=
      (delete_session_shape m sid₀).2.2.1
    have hclt : (md.cleanup_expired_sessions now₂).sessions.length <
        md.max_sessions := by
      have h₁ := List.Sublist.length_le (cleanup_shape md now₂).1
      omega
    have hcmax : (md.cleanup_expired_sessions now₂).max_sessions =
        md.max_sessions := (cleanup_shape md now₂).2.2.1
    have hcond : ¬ ((md.cleanup_expired_sessions now₂).sessions.length ≥
        (md.cleanup_expired_sessions now₂).max_sessions) := by
      rw [hcmax]; omega
    have heq : (md.create_session now₂ sid₂ tok₂ tutor student kb).2 =
        Except.ok
          { session_id := sid₂, tutor_id := tutor, student_id := student,
            kb_id := kb, engine_token := tok₂, status := "active",
            created_at := now₂, last_activity := now₂ } := by
      simp only [SessionManager.create_session]
      rw [if_neg hcond]
    refine ⟨⟨_, heq⟩, ?_⟩
    rw [createSessionHttpStatus, heq]

/-- C1 witness: a registry at its cap of 2 live sessions rejects a third
create with 503, and after deleting one session a create succeeds. -/
theorem create_session_admission_control_witness :
    KeysNodup (SessionManager.mk
        [("sid-1", ⟨"sid-1", 1, 2, none, "tok-1", "active", 0, 0⟩),
         ("sid-2", ⟨"sid-2", 1, 3, none, "tok-2", "active", 0, 0⟩)]
        [("tok-1", "sid-1"), ("tok-2", "sid-2")] 2 3600).sessions
    ∧ createSessionHttpStatus ((SessionManager.mk
        [("sid-1", ⟨"sid-1", 1, 2, none, "tok-1", "active", 0, 0⟩),
         ("sid-2", ⟨"sid-2", 1, 3, none, "tok-2", "active", 0, 0⟩)]
        [("tok-1", "sid-1"), ("tok-2", "sid-2")] 2 3600).create_session 10
        "sid-3" "tok-3" 1 4 none) = 503
    ∧ createSessionHttpStatus (((SessionManager.mk
        [("sid-1", ⟨"sid-1", 1, 2, none, "tok-1", "active", 0, 0⟩),
         ("sid-2", ⟨"sid-2", 1, 3, none, "tok-2", "active", 0, 0⟩)]
        [("tok-1", "sid-1"), ("tok-2", "sid-2")] 2
        3600).delete_session "sid-1").1.create_session 10 "sid-3" "tok-3" 1 4
        none) = 201 := by
  have h := create_session_admission_control
    (SessionManager.mk
        [("sid-1", ⟨"sid-1", 1, 2, none, "tok-1", "active", 0, 0⟩),
         ("sid-2", ⟨"sid-2", 1, 3, none, "tok-2", "active", 0, 0⟩)]
        [("tok-1", "sid-1"), ("tok-2", "sid-2")] 2 3600)
    10 10 "sid-3" "tok-3" "sid-3" "tok-3" "sid-1" 1 4 none (by decide)
  refine ⟨by decide, (h.1 (by decide)).2, ?_⟩
  exact (h.2 (by decide) ⟨"sid-1", 1, 2, none, "tok-1", "active", 0, 0⟩
    (by decide)).2

/-! ## Claim C2 -/

/-- C2: the token index is a bijection onto the live sessions.  For a
well-formed registry and fresh draws, a successful `create_session` leaves
the registry well-formed and `verify_token` takes the issued token back to
the new session's id; in any well-formed registry, `verify_token` returns
the originating session's id (or nothing), and no two live sessions share
an `engine_token`. -/
theorem verify_token_unique
    (m : SessionManager) (now : Int) (sid tok : String)
    (tutor student : Int) (kb : Option String) (hwf : m.Wf)
    (hsid : dictGet m.sessions sid = none)
    (htok : dictGet m.tokens tok = none) :
    (∀ m₁ s, m.create_session now sid tok tutor student kb =
        (m₁, Except.ok s) →
      m₁.Wf ∧ s.engine_token = tok ∧ m₁.verify_token tok = some sid
        ∧ m₁.get_session sid = some s)
    ∧ (∀ t sid₂, m.verify_token t = some sid₂ →
        ∃ s₂, m.get_session sid₂ = some s₂ ∧ s₂.engine_token = t)
    ∧ (∀ sid₁ s₁ sid₂ s₂, m.get_session sid₁ = some s₁ →
        m.get_session sid₂ = some s₂ → s₁.engine_token = s₂.engine_token →
        sid₁ = sid₂) := by
  refine ⟨?_, ?_, ?_⟩
  · intro m₁ s hok
    obtain ⟨hwf₁, htoks, _, hget, hver⟩ := wf_create hwf now tutor student kb
      hsid htok hok
    exact ⟨hwf₁, htoks, hver, hget⟩
  · intro t sid₂ h
    exact hwf.2.2.1 t sid₂ h
  · intro sid₁ s₁ sid₂ s₂ h₁ h₂ heq
    have g₁ := hwf.2.2.2 sid₁ s₁ h₁
    have g₂ := hwf.2.2.2 sid₂ s₂ h₂
    rw [heq, g₂] at g₁
    exact (Option.some.inj g₁).symm

/-- C2 witness: creating a session in a fresh registry yields a token that
verifies back to the created session id. -/
theorem verify_token_unique_witness :
    dictGet (SessionManager.new 5 3600).sessions "sid-a" = none
    ∧ ((SessionManager.new 5 3600).create_session 0 "sid-a" "tok-a" 1 2
        none).1.verify_token "tok-a" = some "sid-a"
    ∧ ((SessionManager.new 5 3600).create_session 0 "sid-a" "tok-a" 1 2
        none).1.get_session "sid-a" =
        some ⟨"sid-a", 1, 2, none, "tok-a", "active", 0, 0⟩ := by
  have h := verify_token_unique (SessionManager.new 5 3600) 0 "sid-a" "tok-a"
    1 2 none (wf_new 5 3600) rfl rfl
  have h₁ := h.1 ((SessionManager.new 5 3600).create_session 0 "sid-a" "tok-a"
      1 2 none).1 ⟨"sid-a", 1, 2, none, "tok-a", "active", 0, 0⟩ rfl
  exact ⟨rfl, h₁.2.2.1, h₁.2.2.2⟩

/-! ## Claim C3 -/

/-- C3: deletion laws of the session registry.  After a successful create,
deleting the created id succeeds and a subsequent get returns not-found
(HTTP 404); a successful delete removes the session from the primary index
and its token from the reverse index; delete of an unknown id returns
`false` and leaves the registry untouched; a second delete of the same id
also returns `false`. -/
theorem delete_session_roundtrip
    (m : SessionManager) (now : Int) (sid tok : String)
    (tutor student : Int) (kb : Option String) :
    (∀ m₁ s, m.create_session now sid tok tutor student kb =
        (m₁, Except.ok s) →
      (m₁.delete_session sid).2 = true
        ∧ ((m₁.delete_session sid).1).get_session sid = none
        ∧ getSessionHttpStatus (((m₁.delete_session sid).1).get_session sid)
            = 404)
    ∧ (∀ s, dictGet m.sessions sid = some s →
        (m.delete_session sid).2 = true
          ∧ ((m.delete_session sid).1).get_session sid = none
          ∧ ((m.delete_session sid).1).verify_token s.engine_token = none)
    ∧ (m.get_session sid = none →
        m.delete_session sid = (m, false)
          ∧ deleteSessionHttpStatus (m.delete_session sid) = 404)
    ∧ (∀ s, dictGet m.sessions sid = some s →
        ((m.delete_session sid).1).delete_session sid =
          ((m.delete_session sid).1, false)) := by
  have hdel : ∀ m₂ : SessionManager, ∀ s, dictGet m₂.sessions sid = some s →
      (m₂.delete_session sid).2 = true
        ∧ ((m₂.delete_session sid).1).get_session sid = none
        ∧ ((m₂.delete_session sid).1).verify_token s.engine_token = none := by
    intro m₂ s hs
    simp only [SessionManager.delete_session, hs, SessionManager.get_session,
      SessionManager.verify_token]
    exact ⟨trivial, dictGet_remove_self _ _, dictGet_remove_self _ _⟩
  have hnone : ∀ m₂ : SessionManager, m₂.get_session sid = none →
      m₂.delete_session sid = (m₂, false) := by
    intro m₂ hs
    rw [SessionManager.get_session] at hs
    simp only [SessionManager.delete_session, hs]
  refine ⟨?_, fun s hs => hdel m s hs, ?_, ?_⟩
  · intro m₁ s hok
    simp only [SessionManager.create_session] at hok
    split at hok
    · exact absurd (congrArg Prod.snd hok) (by simp)
    · injection hok with hm₁ hs
      injection hs with hs
      subst hs
      subst hm₁
      have hget := dictGet_insert_self
        ((m.cleanup_expired_sessions now).sessions) sid
        { session_id := sid, tutor_id := tutor, student_id := student,
          kb_id := kb, engine_token := tok, status := "active",
          created_at := now, last_activity := now }
      have h := hdel
        { sessions := dictInsert (m.cleanup_expired_sessions now).sessions sid
            { session_id := sid, tutor_id := tutor, student_id := student,
              kb_id := kb, engine_token := tok, status := "active",
              created_at := now, last_activity := now },
          tokens := dictInsert (m.cleanup_expired_sessions now).tokens tok sid,
          max_sessions := (m.cleanup_expired_sessions now).max_sessions,
          session_timeout :=
            (m.cleanup_expired_sessions now).session_timeout }
        { session_id := sid, tutor_id := tutor, student_id := student,
          kb_id := kb, engine_token := tok, status := "active",
          created_at := now, last_activity := now } hget
      refine ⟨h.1, h.2.1, ?_⟩
      rw [h.2.1]
      rfl
  · intro hs
    refine ⟨hnone m hs, ?_⟩
    rw [hnone m hs]
    rfl
  · intro s hs
    apply hnone
    exact (hdel m s hs).2.1

/-- C3 witness: create then delete then get returns not-found, and deleting
an unknown id in a fresh registry returns `false` without side effects. -/
theorem delete_session_roundtrip_witness :
    ((((SessionManager.new 5 3600).create_session 0 "sid-b" "tok-b" 1 2
        none).1.delete_session "sid-b").1).get_session "sid-b" = none
    ∧ (SessionManager.new 5 3600).delete_session "missing" =
        (SessionManager.new 5 3600, false)
    ∧ ((((SessionManager.new 5 3600).create_session 0 "sid-b" "tok-b" 1 2
        none).1.delete_session "sid-b").1).delete_session "sid-b" =
        (((((SessionManager.new 5 3600).create_session 0 "sid-b" "tok-b" 1 2
          none).1.delete_session "sid-b").1), false) := by
  have h := delete_session_roundtrip (SessionManager.new 5 3600) 0 "sid-b"
    "tok-b" 1 2 none
  have h₁ := h.1 ((SessionManager.new 5 3600).create_session 0 "sid-b" "tok-b"
      1 2 none).1 ⟨"sid-b", 1, 2, none, "tok-b", "active", 0, 0⟩ rfl
  have h₂ := delete_session_roundtrip
    ((((SessionManager.new 5 3600).create_session 0 "sid-b" "tok-b" 1 2
      none).1.delete_session "sid-b").1) 0 "sid-b" "tok-b" 1 2 none
  exact ⟨h₁.2.1, (h.2.2.1 (by decide)).1, (h₂.2.2.1 h₁.2.1).1⟩

theorem mirror_index_eq_turnPositionMap (size index : Nat) :
    mirror_index size index =
      turnPositionMap size (index / size) (index % size) := rfl

theorem turnPositionMap_involutive (size turn r : Nat) (h : r < size) :
    turnPositionMap size turn (turnPositionMap size turn r) = r := by
  unfold turnPositionMap
  by_cases ht : turn % 2 = 0
  · simp [ht]
  · simp only [if_neg ht]
    omega

theorem mirror_index_lt (size index : Nat) (h : 0 < size) :
    mirror_index size index < size := by
  unfold mirror_index
  have hres : index % size < size := Nat.mod_lt _ h
  by_cases ht : index / size % 2 = 0
  · simpa [ht] using hres
  · simp only [if_neg ht]
    omega

/-- Division and residue of an in-window index. -/
theorem window_div_mod (size k o : Nat) (hsize : 0 < size) (ho : o < size) :
    (size * k + o) / size = k ∧ (size * k + o) % size = o := by
  constructor
  · rw [Nat.add_comm, Nat.add_mul_div_left _ _ hsize, Nat.div_eq_of_lt ho]
    omega
  · rw [Nat.add_comm, Nat.add_mul_mod_self_left, Nat.mod_eq_of_lt ho]

/-! ## Claim C4 -/

/-- C4: for a cycle of length `L > 0`, `mirror_index` computes
`i mod L` on even turns (`i div L` even) and `L - 1 - (i mod L)` on odd
turns; restricted to the window `[L*k, L*(k+1))` of `L` consecutive indices
(all of turn `k`, hence of one turn parity) it is injective and onto
`[0, L)`; and the per-turn position map is an involution, so applying it
twice with the same turn parity returns the original cycle position. -/
theorem mirror_index_bijection (L i k : Nat) (hL : 0 < L) :
    (mirror_index L i =
      if (i / L) % 2 = 0 then i % L else L - 1 - (i % L))
    ∧ (∀ i₁ i₂, L * k ≤ i₁ → i₁ < L * (k + 1) → L * k ≤ i₂ →
        i₂ < L * (k + 1) → mirror_index L i₁ = mirror_index L i₂ → i₁ = i₂)
    ∧ (∀ r, r < L → ∃ i₀, L * k ≤ i₀ ∧ i₀ < L * (k + 1) ∧
        mirror_index L i₀ = r)
    ∧ (L * k ≤ i → i < L * (k + 1) → mirror_index L i < L)
    ∧ (∀ turn r, r < L →
        turnPositionMap L turn (turnPositionMap L turn r) = r) := by
  have hwin : ∀ j, L * k ≤ j → j < L * (k + 1) →
      j / L = k ∧ j % L = j - L * k := by
    intro j h₁ h₂
    have hmul : L * (k + 1) = L * k + L := by ring
    have ho : j - L * k < L := by omega
    have hj : j = L * k + (j - L * k) := by omega
    obtain ⟨hd, hm⟩ := window_div_mod L k (j - L * k) hL ho
    rw [hj]
    exact ⟨hd, hm.trans (by omega)⟩
  refine ⟨?_, ?_, ?_, ?_, fun t r h => turnPositionMap_involutive L t r h⟩
  · unfold mirror_index
    by_cases ht : i / L % 2 = 0
    · simp [ht]
    · simp only [if_neg ht]
      have : i % L < L := Nat.mod_lt _ hL
      omega
  · intro i₁ i₂ h₁l h₁u h₂l h₂u heq
    obtain ⟨hd₁, hm₁⟩ := hwin i₁ h₁l h₁u
    obtain ⟨hd₂, hm₂⟩ := hwin i₂ h₂l h₂u
    have hr₁ : i₁ % L < L := Nat.mod_lt _ hL
    have hr₂ : i₂ % L < L := Nat.mod_lt _ hL
    rw [mirror_index_eq_turnPositionMap, mirror_index_eq_turnPositionMap,
      hd₁, hd₂] at heq
    unfold turnPositionMap at heq
    by_cases ht : k % 2 = 0
    · rw [if_pos ht, if_pos ht] at heq
      omega
    · rw [if_neg ht, if_neg ht] at heq
      omega
  · intro r hr
    refine ⟨L * k + turnPositionMap L k r, by omega, ?_, ?_⟩
    · have hmul : L * (k + 1) = L * k + L := by ring
      have : turnPositionMap L k r < L := by
        unfold turnPositionMap
        by_cases ht : k % 2 = 0
        · simpa [ht] using hr
        · simp only [if_neg ht]
          omega
      omega
    · have hpos : turnPositionMap L k r < L := by
        unfold turnPositionMap
        by_cases ht : k % 2 = 0
        · simpa [ht] using hr
        · simp only [if_neg ht]
          omega
      obtain ⟨hd, hm⟩ := window_div_mod L k (turnPositionMap L k r) hL hpos
      rw [mirror_index_eq_turnPositionMap, hd, hm]
      exact turnPositionMap_involutive L k r hr
  · intro h₁ h₂
    exact mirror_index_lt L i hL

/-- C4 witness: the cycle of length 3 is traversed `0,1,2,2,1,0,…`, the odd
window `[3,6)` maps bijectively onto `[0,3)`, and the reflection applied
twice is the identity. -/
theorem mirror_index_bijection_witness :
    0 < 3 ∧ mirror_index 3 4 = (if (4 / 3) % 2 = 0 then 4 % 3
      else 3 - 1 - (4 % 3))
    ∧ (∃ i₀, 3 * 1 ≤ i₀ ∧ i₀ < 3 * (1 + 1) ∧ mirror_index 3 i₀ = 2)
    ∧ turnPositionMap 3 1 (turnPositionMap 3 1 1) = 1 := by
  have h := mirror_index_bijection 3 4 1 (by decide)
  exact ⟨by decide, h.1, h.2.2.1 2 (by decide), h.2.2.2.2 1 1 (by decide)⟩

theorem emitSilenceBatch_spec {F A E : Type} (cycle : List F) (L : Nat)
    (dflt : F) : ∀ (b index : Nat) (afs : List (AudioFrameRec A E)),
    emitSilenceBatch cycle L dflt b index afs =
      ((List.range b).map
          (fun i => cycle.getD (mirror_index L (index + i)) dflt),
        afs.take (2 * b), index + b) := by
  intro b
  induction b with
  | zero =>
      intro index afs
      simp [emitSilenceBatch]
  | succ b ih =>
      intro index afs
      simp only [emitSilenceBatch, ih, Prod.mk.injEq]
      refine ⟨?_, ?_, by omega⟩
      · rw [List.range_succ_eq_map, List.map_cons, List.map_map]
        have h₁ : ∀ i : Nat, index + 1 + i = index + Nat.succ i := by omega
        simp [Function.comp_def, h₁]
      · rw [show 2 * (b + 1) = 2 + 2 * b by ring, List.take_add]

theorem emitInferredBatch_index {F A E : Type} (blend : F → Nat → F)
    (L : Nat) : ∀ (recon : List F) (index : Nat)
      (afs : List (AudioFrameRec A E)),
    (emitInferredBatch blend L recon index afs).2.2 = index + recon.length := by
  intro recon
  induction recon with
  | nil =>
      intro index afs
      simp [emitInferredBatch]
  | cons r rest ih =>
      intro index afs
      simp only [emitInferredBatch, ih, List.length_cons]
      omega

/-! ## Claim C5 -/

/-- C5: the silence fast path of the inference loop.  When the
`batch_size * 2` audio chunks pulled for a feature batch are all typed
silence (`frame_type ≠ 0`), the neural network is not invoked
(`unetCalls` is unchanged), the `batch_size` emitted video frames are the
original avatar cycle frames at the mirror-indexed positions, the pulled
audio chunks are forwarded to the audio output queue unchanged and in
order, and the logical frame index still advances by `batch_size`. -/
theorem silence_batch_skips_inference {F A E W : Type}
    (frameCycle : List F) (dflt : F) (net : W → List F)
    (blend : F → Nat → F) (B : Nat)
    (st : StreamingEngineState F A E W) (whisper : W) (restFeats : List W)
    (hfeat : st.asr.feat_queue = whisper :: restFeats)
    (hsil : ∀ af ∈ st.asr.output_queue.take (B * 2), af.ftype ≠ 0)
    (_hlen : B * 2 ≤ st.asr.output_queue.length) :
    engineInferStep frameCycle dflt net blend B st =
      { st with
        inferIndex := st.inferIndex + B,
        video_frame_queue := st.video_frame_queue ++
          (List.range B).map (fun i =>
            frameCycle.getD
              (mirror_index frameCycle.length (st.inferIndex + i)) dflt),
        audio_frame_queue := st.audio_frame_queue ++
          st.asr.output_queue.take (B * 2),
        asr := { st.asr with
                 feat_queue := restFeats,
                 output_queue := st.asr.output_queue.drop (B * 2) } } := by
  have hall : isAllSilence (st.asr.output_queue.take (B * 2)) = true := by
    rw [isAllSilence, List.all_eq_true]
    intro af haf
    simpa using hsil af haf
  rw [engineInferStep, hfeat]
  simp only [hall, if_pos, emitSilenceBatch_spec]
  have htake : (st.asr.output_queue.take (B * 2)).take (2 * B) =
      st.asr.output_queue.take (B * 2) := by
    rw [List.take_take, Nat.mul_comm 2 B, Nat.min_self]
  rw [htake]

/-- C5 witness: a batch of size 2 whose four pulled chunks are all silence
emits the original frames at mirror positions `0,1`, forwards the four
chunks, advances the index to 2 and leaves the UNet counter at 0. -/
theorem silence_batch_skips_inference_witness :
    ((⟨0, [], [], ⟨[], [⟨5, 1, none⟩, ⟨6, 1, none⟩, ⟨7, 1, none⟩,
        ⟨8, 1, none⟩], [9], []⟩, 0⟩ :
      StreamingEngineState Nat Nat Nat Nat).asr.feat_queue = 9 :: [])
    ∧ (∀ af ∈ ((⟨0, [], [], ⟨[], [⟨5, 1, none⟩, ⟨6, 1, none⟩, ⟨7, 1, none⟩,
        ⟨8, 1, none⟩], [9], []⟩, 0⟩ :
      StreamingEngineState Nat Nat Nat Nat).asr.output_queue.take (2 * 2)),
        af.ftype ≠ 0)
    ∧ engineInferStep [10, 20, 30] 0 (fun _ => [99]) (fun f _ => f) 2
        (⟨0, [], [], ⟨[], [⟨5, 1, none⟩, ⟨6, 1, none⟩, ⟨7, 1, none⟩,
          ⟨8, 1, none⟩], [9], []⟩, 0⟩ :
          StreamingEngineState Nat Nat Nat Nat) =
        ⟨2, [10, 20], [⟨5, 1, none⟩, ⟨6, 1, none⟩, ⟨7, 1, none⟩,
          ⟨8, 1, none⟩], ⟨[], [], [], []⟩, 0⟩ := by
  have h := silence_batch_skips_inference [10, 20, 30] 0
    (fun _ : Nat => [99]) (fun f _ => f) 2
    (⟨0, [], [], ⟨[], [⟨5, 1, none⟩, ⟨6, 1, none⟩, ⟨7, 1, none⟩,
      ⟨8, 1, none⟩], [9], []⟩, 0⟩ : StreamingEngineState Nat Nat Nat Nat)
    9 [] rfl (by decide) (by decide)
  refine ⟨rfl, by decide, ?_⟩
  rw [h]
  decide

/-! ## Claim C6 -/

/-- C6 (amended): within a request (and in fact across the whole life of
the inference loop) the logical frame index is monotonically
non-decreasing, and at a request boundary `process_text` → `_clear_queues`
drains the video queue, the audio queue and the ASR helper — but it does
NOT reset the frame index, which lives in a local variable of
`_inference_loop` and persists across requests on the same engine. -/
theorem frame_index_monotone_queue_boundary {F A E W : Type}
    (frameCycle : List F) (dflt : F) (net : W → List F)
    (blend : F → Nat → F) (B : Nat)
    (st : StreamingEngineState F A E W) :
    st.inferIndex ≤ (engineInferStep frameCycle dflt net blend B st).inferIndex
    ∧ (clear_queues st).video_frame_queue = []
    ∧ (clear_queues st).audio_frame_queue = []
    ∧ (clear_queues st).asr =
        { input_queue := [], output_queue := [], feat_queue := [],
          frames := [] }
    ∧ (clear_queues st).inferIndex = st.inferIndex := by
  refine ⟨?_, rfl, rfl, rfl, rfl⟩
  cases hfeat : st.asr.feat_queue with
  | nil => simp [engineInferStep, hfeat]
  | cons whisper restFeats =>
      by_cases hall : isAllSilence (st.asr.output_queue.take (B * 2)) = true
      · simp only [engineInferStep, hfeat, hall, if_true,
          emitSilenceBatch_spec]
        omega
      · simp only [engineInferStep, hfeat, if_neg hall,
          emitInferredBatch_index]
        omega

/-- C6 counterexample: the claim says the frame index is reset between
requests.  In the code it is not: after a request that consumed one batch
of size 2 (index `0 → 2`), the request boundary (`_clear_queues`) leaves
the index at `2`, so the next request on the same engine starts at `2`,
not `0`. -/
theorem frame_index_not_reset_counterexample :
    (clear_queues (engineInferStep [10, 20, 30] 0 (fun _ : Nat => [99])
      (fun f _ => f) 2
      (⟨0, [], [], ⟨[], [⟨5, 1, none⟩, ⟨6, 1, none⟩, ⟨7, 1, none⟩,
        ⟨8, 1, none⟩], [9], []⟩, 0⟩ :
        StreamingEngineState Nat Nat Nat Nat))).inferIndex = 2
    ∧ ((2 : Nat) = 0 → False) := by decide

/-! ## Claim C7 -/

/-- C7 (amended): a JSON decode error on an inbound message yields exactly
one error reply to the client, but the `except` handler is outside the
receive loop, so the loop terminates: the connection is removed from the
live-connections map in the `finally` block and no subsequent message of
the same connection is processed. -/
theorem json_decode_error_ends_loop {M R : Type} (handle : M → List R)
    (pre : List M) (raw : String) (rest : List (WsInbound M)) :
    websocket_endpoint_run handle
        (pre.map WsInbound.valid ++ WsInbound.malformed raw :: rest) =
      { replies := (pre.flatMap handle).map WsReply.handled ++
          [WsReply.errorReply "Invalid message format"],
        loopRunning := false, registered := false } := by
  induction pre with
  | nil => rfl
  | cons m ms ih =>
      simp only [websocket_endpoint_run, wsMessageLoop, List.map_cons,
        List.cons_append] at ih ⊢
      rw [WsRunResult.mk.injEq] at ih
      simp [wsMessageLoop, ih.1, ih.2.1, List.flatMap_cons]

/-- C7 counterexample: with a router that echoes each message, the trace
`[malformed, valid 7]` produces only the error reply — the loop does not
continue to process the second message and the connection is deregistered,
refuting "the connection remains open and the loop continues". -/
theorem json_decode_error_counterexample :
    (websocket_endpoint_run (fun n : Nat => [n])
        [WsInbound.malformed "not-json", WsInbound.valid 7]).replies =
      [WsReply.errorReply "Invalid message format"]
    ∧ (websocket_endpoint_run (fun n : Nat => [n])
        [WsInbound.malformed "not-json", WsInbound.valid 7]).loopRunning
        = false
    ∧ ¬ (WsReply.handled 7 ∈ (websocket_endpoint_run (fun n : Nat => [n])
        [WsInbound.malformed "not-json", WsInbound.valid 7]).replies) := by
  refine ⟨rfl, rfl, ?_⟩
  decide

/-! ## Claim C8 -/

/-- C8 (amended): every candidate advertised to the client is of relay
type — candidate lines other than `typ relay` (host, server-reflexive) are
removed from the answer SDP and never sent as out-of-band
`webrtc_ice_candidate` messages — and the configured public address is
substituted into every connection (`c=IN IP4`) line of the answer SDP.
(Addresses inside surviving relay candidate lines are not rewritten.) -/
theorem relay_only_candidates (publicIp : String) (sdp : List SdpLine) :
    (∀ l ∈ (handle_offer_filtering publicIp sdp).1,
        ∀ typ addr body, l = SdpLine.candLine typ addr body → typ = "relay")
    ∧ (∀ msg ∈ (handle_offer_filtering publicIp sdp).2, msg.typ = "relay")
    ∧ (∀ l ∈ (handle_offer_filtering publicIp sdp).1,
        ∀ ip, l = SdpLine.connLine ip → ip = publicIp) := by
  have hmod : ∀ l ∈ modify_sdp_for_public_ip publicIp sdp,
      (∀ typ addr body, l = SdpLine.candLine typ addr body →
        typ = "relay")
      ∧ (∀ ip, l = SdpLine.connLine ip → ip = publicIp) := by
    intro l hl
    rw [modify_sdp_for_public_ip] at hl
    obtain ⟨hmem, hkeep⟩ := List.mem_filter.mp hl
    obtain ⟨l₀, _, hsubst⟩ := List.mem_map.mp hmem
    constructor
    · rintro typ addr body rfl
      simpa [keepSdpLine] using hkeep
    · rintro ip rfl
      cases l₀ with
      | connLine ip₀ => exact SdpLine.connLine.inj hsubst.symm
      | mediaLine d => exact absurd hsubst (by simp [substConnIp])
      | midLine m => exact absurd hsubst (by simp [substConnIp])
      | candLine t a b => exact absurd hsubst (by simp [substConnIp])
      | otherLine s => exact absurd hsubst (by simp [substConnIp])
  have hsend : ∀ (ls : List SdpLine) (mline : Int) (mid : Option String),
      (∀ l ∈ ls, ∀ typ addr body, l = SdpLine.candLine typ addr body →
        typ = "relay") →
      ∀ msg ∈ send_ice_candidates_from_sdp ls mline mid,
        msg.typ = "relay" := by
    intro ls
    induction ls with
    | nil =>
        intro mline mid _ msg hmsg
        simp [send_ice_candidates_from_sdp] at hmsg
    | cons l rest ih =>
        intro mline mid hall msg hmsg
        have hrest : ∀ l₁ ∈ rest, ∀ typ addr body,
            l₁ = SdpLine.candLine typ addr body → typ = "relay" :=
          fun l₁ h₁ => hall l₁ (List.mem_cons_of_mem _ h₁)
        cases l with
        | connLine ip =>
            exact ih _ _ hrest msg hmsg
        | mediaLine d =>
            exact ih _ _ hrest msg hmsg
        | midLine m =>
            exact ih _ _ hrest msg hmsg
        | candLine typ addr body =>
            rw [send_ice_candidates_from_sdp] at hmsg
            by_cases ht : typ = "relay"
            · rw [if_pos ht] at hmsg
              rcases List.mem_cons.mp hmsg with rfl | hmsg₂
              · exact ht
              · exact ih _ _ hrest msg hmsg₂
            · rw [if_neg ht] at hmsg
              exact ih _ _ hrest msg hmsg
        | otherLine s =>
            exact ih _ _ hrest msg hmsg
  refine ⟨fun l hl => (hmod l hl).1, ?_, fun l hl => (hmod l hl).2⟩
  exact hsend _ _ _ (fun l hl => (hmod l hl).1)

/-- C8 counterexample: the claim says the public address is substituted for
ANY internal address appearing in the answer SDP; but the `re.sub` only
rewrites `c=IN IP4` lines, so a relay candidate line that carries the
internal address `192.168.1.5` survives the rewrite with its address
untouched, while the configured public address is `51.161.209.200`. -/
theorem internal_addr_in_candidate_counterexample :
    SdpLine.candLine "relay" "192.168.1.5" "udp" ∈
      (handle_offer_filtering "51.161.209.200"
        [SdpLine.connLine "192.168.1.5",
         SdpLine.candLine "relay" "192.168.1.5" "udp"]).1
    ∧ ("192.168.1.5" = "51.161.209.200" → False) := by
  refine ⟨?_, by decide⟩
  show SdpLine.candLine "relay" "192.168.1.5" "udp" ∈
    [SdpLine.connLine "51.161.209.200",
     SdpLine.candLine "relay" "192.168.1.5" "udp"]
  exact List.mem_cons_of_mem _ (List.mem_cons_self _ _)

theorem couplerRun_of_triggeredLocal (ts : List ℚ) :
    ∀ (g : AvSync) (c : CouplerState), c.syncTriggeredLocal = true →
      couplerRun g c ts = (g,
        { frameCount := c.frameCount + ts.length,
          syncTriggeredLocal := true }) := by
  induction ts with
  | nil =>
      intro g c hc
      simp [couplerRun, ← hc]
  | cons t rest ih =>
      intro g c hc
      rw [couplerRun, couplerFrameStep]
      simp only [hc]
      rw [if_neg (by simp)]
      rw [ih g _ rfl]
      simp only [List.length_cons]
      rw [Prod.mk.injEq, CouplerState.mk.injEq]
      exact ⟨rfl, by omega, rfl⟩

/-- After the latch: one `next_timestamp` call with frame count `n` paces
to the deadline `T0 + (n + 1) · ptime` and never releases before it. -/
theorem next_timestamp_paced (ptime : ℚ) (ptsInc : Int)
    (sharedStart : Option ℚ) (T0 now : ℚ) (n : Nat) (ts : Int)
    (st : TrackState) (hd : st.dataStarted = true)
    (hts : st.timestamp = some ts) (hstart : st.start = T0)
    (hn : st.frameCount = n) :
    (next_timestamp ptime ptsInc sharedStart st now).deadline =
        some (T0 + ((n : ℚ) + 1) * ptime)
    ∧ T0 + ((n : ℚ) + 1) * ptime ≤
        (next_timestamp ptime ptsInc sharedStart st now).releaseTime
    ∧ (next_timestamp ptime ptsInc sharedStart st now).state =
        { st with
          timestamp := some (ts + ptsInc), frameCount := n + 1 } := by
  have hcast : ((n + 1 : Nat) : ℚ) = (n : ℚ) + 1 := by push_cast; ring
  have key : next_timestamp ptime ptsInc sharedStart st now =
      { pts := ts + ptsInc,
        state := { st with
          timestamp := some (ts + ptsInc),
          frameCount := st.frameCount + 1 },
        deadline := some (st.start + ((st.frameCount + 1 : Nat) : ℚ) * ptime),
        releaseTime :=
          max now (st.start + ((st.frameCount + 1 : Nat) : ℚ) * ptime) } := by
    rw [next_timestamp.eq_def, if_neg (by rw [hd]; simp), hts]
  rw [key, hstart, hn, hcast]
  exact ⟨rfl, le_max_right _ _, rfl⟩

/-! ## Claim C9 -/

/-- C9: the A/V sync latch and pacing contract.  `trigger_av_sync` assigns
the shared wall-clock start time exactly once (repeated calls are no-ops);
the output coupler fires the latch exactly when `PREBUFFER_FRAMES = 3` real
frames have accumulated (and not before), latching `T₀` to that moment;
after the latch the call made with frame count `n` paces the video track to
the deadline `T₀ + (n+1) · 40ms` and the audio track to
`T₀ + (n+1) · 20ms`, and neither releases a frame before its deadline (the
track sleeps to the deadline when it lies in the future); the first real
frame of a track latches its start time to the shared `T₀`. -/
theorem av_sync_latch_and_pacing (g : AvSync) (t₁ t₂ T0 now : ℚ)
    (times : List ℚ) (st : TrackState) (n : Nat) (ts : Int)
    (hd : st.dataStarted = true) (hts : st.timestamp = some ts)
    (hstart : st.start = T0) (hn : st.frameCount = n) :
    trigger_av_sync (trigger_av_sync g t₁) t₂ = trigger_av_sync g t₁
    ∧ (g.syncTriggered = false →
        (trigger_av_sync g t₁).sharedStart = some t₁)
    ∧ (∀ a b c rest, times = a :: b :: c :: rest →
        (couplerRun { syncTriggered := false, sharedStart := none }
            { frameCount := 0, syncTriggeredLocal := false } times).1 =
          { syncTriggered := true, sharedStart := some c })
    ∧ (times.length < PREBUFFER_FRAMES →
        ((couplerRun { syncTriggered := false, sharedStart := none }
            { frameCount := 0, syncTriggeredLocal := false }
            times).1).syncTriggered = false)
    ∧ (videoNextTimestamp (some T0) st now).deadline =
        some (T0 + ((n : ℚ) + 1) * (40 / 1000))
    ∧ T0 + ((n : ℚ) + 1) * (40 / 1000) ≤
        (videoNextTimestamp (some T0) st now).releaseTime
    ∧ (audioNextTimestamp (some T0) st now).deadline =
        some (T0 + ((n : ℚ) + 1) * (20 / 1000))
    ∧ T0 + ((n : ℚ) + 1) * (20 / 1000) ≤
        (audioNextTimestamp (some T0) st now).releaseTime
    ∧ (∀ k s₀, (next_timestamp (40 / 1000) 3600 (some T0)
        { dataStarted := true, timestamp := none, start := s₀,
          frameCount := k } now).state.start = T0) := by
  have hvid := next_timestamp_paced (40 / 1000) 3600 (some T0) T0 now n ts st
    hd hts hstart hn
  have haud := next_timestamp_paced (20 / 1000) 320 (some T0) T0 now n ts st
    hd hts hstart hn
  refine ⟨?_, ?_, ?_, ?_, hvid.1, hvid.2.1, haud.1, haud.2.1, ?_⟩
  · by_cases hg : g.syncTriggered = true
    · simp [trigger_av_sync, hg]
    · simp only [Bool.not_eq_true] at hg
      simp [trigger_av_sync, hg]
  · intro hg
    simp [trigger_av_sync, hg]
  · intro a b c rest heq
    subst heq
    have s₁ : couplerFrameStep { syncTriggered := false, sharedStart := none }
        { frameCount := 0, syncTriggeredLocal := false } a =
        ({ syncTriggered := false, sharedStart := none },
          { frameCount := 1, syncTriggeredLocal := false }) := by
      simp [couplerFrameStep, PREBUFFER_FRAMES]
    have s₂ : couplerFrameStep { syncTriggered := false, sharedStart := none }
        { frameCount := 1, syncTriggeredLocal := false } b =
        ({ syncTriggered := false, sharedStart := none },
          { frameCount := 2, syncTriggeredLocal := false }) := by
      simp [couplerFrameStep, PREBUFFER_FRAMES]
    have s₃ : couplerFrameStep { syncTriggered := false, sharedStart := none }
        { frameCount := 2, syncTriggeredLocal := false } c =
        ({ syncTriggered := true, sharedStart := some c },
          { frameCount := 3, syncTriggeredLocal := true }) := by
      simp [couplerFrameStep, PREBUFFER_FRAMES, trigger_av_sync]
    rw [couplerRun, s₁]
    rw [couplerRun, s₂]
    rw [couplerRun, s₃]
    rw [couplerRun_of_triggeredLocal rest _ _ rfl]
  · intro hlen
    match times with
    | [] => rfl
    | [a] => simp [couplerRun, couplerFrameStep, PREBUFFER_FRAMES]
    | [a, b] =>
        simp [couplerRun, couplerFrameStep, PREBUFFER_FRAMES]
    | a :: b :: c :: rest =>
        simp only [List.length_cons, PREBUFFER_FRAMES] at hlen
        omega
  · intro k s₀
    rfl

/-- C9 witness: with `T₀ = 100` and a latched track at frame count 0, the
next video frame paces to `100 + 40ms` and the next audio frame to
`100 + 20ms`, and a three-frame arrival trace latches `T₀` to the third
arrival time. -/
theorem av_sync_latch_and_pacing_witness :
    (⟨true, some 0, 100, 0⟩ : TrackState).dataStarted = true
    ∧ (couplerRun { syncTriggered := false, sharedStart := none }
        { frameCount := 0, syncTriggeredLocal := false } [1, 2, 3]).1 =
        { syncTriggered := true, sharedStart := some 3 }
    ∧ (videoNextTimestamp (some 100) ⟨true, some 0, 100, 0⟩ 50).deadline =
        some (100 + (((0 : Nat) : ℚ) + 1) * (40 / 1000))
    ∧ 100 + (((0 : Nat) : ℚ) + 1) * (20 / 1000) ≤
        (audioNextTimestamp (some 100) ⟨true, some 0, 100, 0⟩ 50).releaseTime
    := by
  have h := av_sync_latch_and_pacing (⟨false, none⟩ : AvSync) 1 2 100 50
    [1, 2, 3] (⟨true, some 0, 100, 0⟩ : TrackState) 0 0 rfl rfl rfl rfl
  exact ⟨rfl, h.2.2.1 1 2 3 [] rfl, h.2.2.2.2.1, h.2.2.2.2.2.2.2.1⟩

/-! ## Claim C10 -/

/-- C10: `AvatarVideoTrack` defines no `add_frame` and `AvatarAudioTrack`
no `add_audio_chunk`.  Hence for every session with a registered video
track, `stream_frame` raises `AttributeError` and enqueues nothing onto
the video track; and `stream_audio`, which catches and logs all
exceptions, silently drops the audio — the state is unchanged and the
caller observes no error. -/
theorem stream_frame_attribute_error (st : WebRTCStreamerState)
    (sid : String) (frame : Nat) (chunks : List Nat)
    (hv : sid ∈ st.video_tracks) (ha : sid ∈ st.audio_tracks) :
    ("add_frame" ∈ avatarVideoTrackAttrs → False)
    ∧ stream_frame st sid frame = (st, PyOutcome.raised "AttributeError")
    ∧ ("add_audio_chunk" ∈ avatarAudioTrackAttrs → False)
    ∧ stream_audio st sid chunks = (st, PyOutcome.ok) := by
  refine ⟨by decide, ?_, by decide, ?_⟩
  · have hga : getattrCall avatarVideoTrackAttrs "add_frame" =
        PyOutcome.raised "AttributeError" := by decide
    rw [stream_frame, if_pos hv, hga]
  · have hga : getattrCall avatarAudioTrackAttrs "add_audio_chunk" =
        PyOutcome.raised "AttributeError" := by decide
    rw [stream_audio, if_pos ha, hga]

/-- C10 witness: a streamer with session "s" registered on both tracks —
`stream_frame` surfaces `AttributeError` with no state change, while
`stream_audio` completes "successfully" while dropping the chunks. -/
theorem stream_frame_attribute_error_witness :
    ("s" ∈ (⟨["s"], ["s"], [("s", [])], [("s", [])]⟩ :
        WebRTCStreamerState).video_tracks)
    ∧ stream_frame (⟨["s"], ["s"], [("s", [])], [("s", [])]⟩ :
        WebRTCStreamerState) "s" 7 =
      ((⟨["s"], ["s"], [("s", [])], [("s", [])]⟩ : WebRTCStreamerState),
        PyOutcome.raised "AttributeError")
    ∧ stream_audio (⟨["s"], ["s"], [("s", [])], [("s", [])]⟩ :
        WebRTCStreamerState) "s" [1, 2] =
      ((⟨["s"], ["s"], [("s", [])], [("s", [])]⟩ : WebRTCStreamerState),
        PyOutcome.ok) := by
  have h := stream_frame_attribute_error
    (⟨["s"], ["s"], [("s", [])], [("s", [])]⟩ : WebRTCStreamerState) "s" 7
    [1, 2] (by decide) (by decide)
  exact ⟨by decide, h.2.1, h.2.2.2⟩
